import Mathlib

/-!
# go-mitm proxy core: dispatcher, list setters and capture pipeline

A shallow embedding of `proxy/proxy.go`.

Modelling conventions
* A Go `string` is a `List Char` (`Str`): the text handled here (host names,
  header values, pattern lists) is valid UTF-8, and every separator the code
  looks for (`;`, `:`) is ASCII, so byte offsets and rune offsets cut the
  text at the same places.
* A Go `[]byte` body is a `List UInt8` (`Bytes`); `string(bodyBytes)` keeps the
  byte content, so a body stored in a record is kept as `Bytes`.
* Calls that leave the repository (`filepath.Match`, the three decompressors,
  `unicode.ToLower` beyond ASCII, URL printing, cookie parsing, base64, PEM and
  X.509 parsing, key generation) are fields of `GoLib` / `Crypto`, and the
  theorems hold for every choice of them.
-/

set_option autoImplicit false

namespace GoMitm

abbrev Str := List Char
abbrev Bytes := List UInt8

/-! ## `strings` helpers used by the proxy -/

/-- Go `unicode.IsSpace`: the Latin-1 cases of the `switch`, then the
`White_Space` ranges above Latin-1. -/
def isSpace (c : Char) : Bool :=
  let n := c.toNat
  n == 0x09 || n == 0x0A || n == 0x0B || n == 0x0C || n == 0x0D || n == 0x20 ||
  n == 0x85 || n == 0xA0 || n == 0x1680 || (0x2000 ≤ n && n ≤ 0x200A) ||
  n == 0x2028 || n == 0x2029 || n == 0x202F || n == 0x205F || n == 0x3000

/-- Go `strings.TrimSpace`: drop leading, then trailing, white space. -/
def TrimSpace (s : Str) : Str :=
  ((s.dropWhile isSpace).reverse.dropWhile isSpace).reverse

/-- Go `strings.Split(s, string(sep))` for a one-byte separator: the pieces
between consecutive separators, so `n` separators give `n + 1` pieces and the
empty string gives one empty piece. -/
def Split (sep : Char) : Str → List Str
  | [] => [[]]
  | c :: cs =>
    if c = sep then [] :: Split sep cs
    else match Split sep cs with
      | [] => [[c]]
      | t :: ts => (c :: t) :: ts

/-- Go `strings.HasPrefix(s, p)`. -/
def startsWith : Str → Str → Bool
  | _, [] => true
  | [], _ :: _ => false
  | c :: cs, d :: ds => c == d && startsWith cs ds

/-- Go `strings.Contains(s, sub)`. -/
def Contains : Str → Str → Bool
  | [], sub => sub.isEmpty
  | c :: cs, sub => startsWith (c :: cs) sub || Contains cs sub

/-- Offset search behind `strings.Index`: `i` is the offset of the current
suffix in the original string. -/
def indexFrom (sub : Str) : Str → Nat → Int
  | [], i => if sub.isEmpty then (i : Int) else -1
  | c :: cs, i => if startsWith (c :: cs) sub then (i : Int) else indexFrom sub cs (i + 1)

/-- Go `strings.Index(s, sub)`: offset of the first occurrence, `-1` if none. -/
def Index (s sub : Str) : Int := indexFrom sub s 0

/-- ASCII part of `unicode.ToLower`: `A`..`Z` move to `a`..`z`. -/
def asciiToLower (c : Char) : Char :=
  if 0x41 ≤ c.toNat ∧ c.toNat ≤ 0x5A then Char.ofNat (c.toNat + 32) else c

/-- Go `strings.ToLower`: every rune goes through `unicode.ToLower`; its
behaviour above ASCII is the given function `u`. -/
def ToLower (u : Char → Char) (s : Str) : Str :=
  s.map (fun c => if c.toNat < 128 then asciiToLower c else u c)

/-! ## Library calls taken as given -/

/-- One URL, as far as the proxy touches it. -/
structure URL where
  Scheme : Str
  Host : Str
  Rest : Str
deriving DecidableEq, Repr

/-- A parsed cookie, as far as the proxy touches it. -/
structure Cookie where
  Name : Str
  Raw : Str
deriving DecidableEq, Repr

/-- Multi-valued header map `http.Header`, as an association list with one
entry per key. -/
abbrev Header := List (Str × List Str)

/-- The functions the proxy calls outside the repository. -/
structure GoLib where
  /-- The function `unicode.ToLower` above ASCII. -/
  unicodeToLower : Char → Char
  /-- The `matched` result of `filepath.Match(pattern, name)`; it is `false`
  when the pattern is malformed, and the proxy discards the error. -/
  Match : Str → Str → Bool
  /-- The call `io.ReadAll(flate.NewReader(bytes.NewReader(b)))`. -/
  inflate : Bytes → Except Str Bytes
  /-- The call `io.ReadAll(brotli.NewReader(bytes.NewReader(b)))`. -/
  unbrotli : Bytes → Except Str Bytes
  /-- The call `gzip.NewReader(bytes.NewReader(b))` followed by `io.ReadAll`. -/
  gunzip : Bytes → Except Str Bytes
  /-- The method `(*url.URL).String`. -/
  urlString : URL → Str
  /-- The method `(*http.Request).Cookies`. -/
  requestCookies : Header → List Cookie
  /-- The method `(*http.Response).Cookies`. -/
  responseCookies : Header → List Cookie
  /-- The function `base64.StdEncoding.EncodeToString`. -/
  base64 : Bytes → Str
  /-- The function `textproto.CanonicalMIMEHeaderKey`. -/
  canonicalKey : Str → Str

/-! ## The proxy object and its list setters -/

/-- A parsed X.509 certificate (`*x509.Certificate`), kept as its DER bytes. -/
structure Certificate where
  Raw : Bytes
deriving DecidableEq, Repr

/-- An RSA private key (`*rsa.PrivateKey`), kept as its encoding. -/
structure PrivateKey where
  Raw : Bytes
deriving DecidableEq, Repr

/-- The struct `Proxy`. Pointer fields are options (`none` is `nil`);
`listener` and `srv` record whether the field has been set; the logger and the
capture channel, which belong to the embedder, are left out. -/
structure Proxy where
  rootCert : Option Certificate
  rootKey : Option PrivateKey
  privateKey : Option PrivateKey
  listener : Bool
  srv : Bool
  proxy : Option URL
  serialNumber : Int
  exclude : List Str
  /-- The field `include`, a reserved word here, hence the underscore. -/
  include_ : List Str
deriving DecidableEq, Repr

/-- The zero value `new(Proxy)`. -/
def Proxy.new : Proxy :=
  { rootCert := none, rootKey := none, privateKey := none, listener := false, srv := false,
    proxy := none, serialNumber := 0, exclude := [], include_ := [] }

/-- Loop body shared by `SetInclude` and `SetExclude`: trim, skip when empty,
append otherwise. -/
def appendToken (acc : List Str) (v : Str) : List Str :=
  let v := TrimSpace v
  if v = [] then acc else acc ++ [v]

/-- `Proxy.Include`. -/
def Proxy.Include (p : Proxy) : List Str := p.include_

/-- `Proxy.SetInclude`: the updated proxy and the returned slice. -/
def Proxy.SetInclude (p : Proxy) (includes : Str) : Proxy × List Str :=
  let incl := (Split ';' includes).foldl appendToken []
  let p := { p with include_ := incl }
  (p, p.include_)

/-- `Proxy.ClearInclude`. -/
def Proxy.ClearInclude (p : Proxy) : Proxy × List Str :=
  let p := { p with include_ := [] }
  (p, p.include_)

/-- `Proxy.Exclude`. -/
def Proxy.Exclude (p : Proxy) : List Str := p.exclude

/-- `Proxy.SetExclude`: the updated proxy and the returned slice. -/
def Proxy.SetExclude (p : Proxy) (excludes : Str) : Proxy × List Str :=
  let excl := (Split ';' excludes).foldl appendToken []
  let p := { p with exclude := excl }
  (p, p.exclude)

/-- `Proxy.ClearExclude`. -/
def Proxy.ClearExclude (p : Proxy) : Proxy × List Str :=
  let p := { p with exclude := [] }
  (p, p.exclude)

/-- The list the specification describes for a setter: split on `;`, trim every
piece, drop the pieces that are empty after trimming. -/
def specTokens (s : Str) : List Str :=
  ((Split ';' s).map TrimSpace).filter (fun t => t ≠ [])

/-! ## Requests, responses and the response writer -/

/-- The struct `tls.ConnectionState`, as far as the proxy reads it. -/
structure ConnectionState where
  Version : Nat
  ServerName : Str
  NegotiatedProtocol : Str
  CipherSuite : Nat
  TLSUnique : Bytes
deriving DecidableEq, Repr

/-- A body stream (`io.ReadCloser`): the bytes it delivers, then end of file
(`none`) or a read error. -/
structure BodyStream where
  data : Bytes
  err : Option Str
deriving DecidableEq, Repr

/-- The struct `http.Request`, as far as the proxy reads it. -/
structure Request where
  Method : Str
  URL : URL
  Header : Header
  Body : BodyStream
  Host : Str
  RemoteAddr : Str
  TLS : Option ConnectionState
deriving DecidableEq, Repr

/-- The struct `http.Response`, as far as the proxy reads it. -/
structure Response where
  StatusCode : Nat
  Header : Header
  Body : BodyStream
  TLS : Option ConnectionState
deriving DecidableEq, Repr

/-- The handler that `ServeHTTP` hands the request to. -/
inductive Handler where
  | forward
  | handleHttps
  | doRequest
deriving DecidableEq, Repr

/-- The exclude loop of `ServeHTTP`: `true` when some pattern matched and the
loop left through `p.forward(w, r); return`. -/
def excludeLoop (L : GoLib) (host : Str) : List Str → Bool
  | [] => false
  | v :: vs => if L.Match v host then true else excludeLoop L host vs

/-- The include loop of `ServeHTTP`, entered with `include = false`: the value
of `include` when the loop ends or breaks. -/
def includeLoop (L : GoLib) (host : Str) : List Str → Bool
  | [] => false
  | v :: vs => if L.Match v host then true else includeLoop L host vs

/-- The host that `ServeHTTP` matches patterns against: `r.Host`, cut at its
first `:` when it has one. -/
def matchHost (rHost : Str) : Str :=
  if Contains rHost [':'] then rHost.take (Index rHost [':']).toNat else rHost

/-- The constant `http.MethodConnect`. -/
def MethodConnect : Str := "CONNECT".toList

/-- The dispatcher `Proxy.ServeHTTP`: the handler that receives `(w, r)`. The
`if false` branch to `doReplace` is dead code. -/
def Proxy.ServeHTTP (L : GoLib) (p : Proxy) (r : Request) : Handler :=
  let host := matchHost r.Host
  if p.exclude.length > 0 ∧ excludeLoop L host p.exclude = true then Handler.forward
  else
    let incl := if p.include_.length > 0 then includeLoop L host p.include_ else true
    if !incl then Handler.forward
    else if r.Method = MethodConnect then Handler.handleHttps
    else Handler.doRequest

/-- The decision the specification gives for the dispatcher, on the bare host
`h` and the method `m`. -/
def specRoute (L : GoLib) (E I : List Str) (h m : Str) : Handler :=
  if E.any (fun v => L.Match v h) then Handler.forward
  else if I ≠ [] ∧ ¬ (I.any (fun v => L.Match v h) = true) then Handler.forward
  else if m = MethodConnect then Handler.handleHttps
  else Handler.doRequest

/-! ## `http.Header` and the response writer -/

/-- The map read `h[key]`. -/
def Header.values (h : Header) (key : Str) : List Str :=
  match h.find? (fun e => e.1 == key) with
  | some e => e.2
  | none => []

/-- The map write `h[key] = vs`. -/
def Header.put (h : Header) (key : Str) (vs : List Str) : Header :=
  if h.any (fun e => e.1 == key) then h.map (fun e => if e.1 == key then (key, vs) else e)
  else h ++ [(key, vs)]

/-- The method `Header.Add`. -/
def Header.Add (L : GoLib) (h : Header) (key value : Str) : Header :=
  let k := L.canonicalKey key
  Header.put h k (Header.values h k ++ [value])

/-- The method `Header.Set`. -/
def Header.Set (L : GoLib) (h : Header) (key value : Str) : Header :=
  Header.put h (L.canonicalKey key) [value]

/-- The method `Header.Del`. -/
def Header.Del (L : GoLib) (h : Header) (key : Str) : Header :=
  h.filter (fun e => e.1 != L.canonicalKey key)

/-- The method `Header.Get`: first value under the canonical key, or `""`. -/
def Header.Get (L : GoLib) (h : Header) (key : Str) : Str :=
  match Header.values h (L.canonicalKey key) with
  | [] => []
  | v :: _ => v

/-- The function `copyHeader`: every value of every key of `src` is added to
`dst`. -/
def copyHeader (L : GoLib) (dst src : Header) : Header :=
  src.foldl (fun d kv => kv.2.foldl (fun d v => Header.Add L d kv.1 v) d) dst

/-- The state behind an `http.ResponseWriter`. `header` is the map returned by
`w.Header()`; `sent` is the header block put on the wire, a copy of `header`
taken when the status line is written; `body` is what the client has received;
`room` is the number of body bytes the client connection still accepts. -/
structure ResponseWriter where
  header : Header
  wroteHeader : Bool
  status : Nat
  sent : Header
  body : Bytes
  room : Nat
deriving DecidableEq, Repr

/-- A fresh writer for a connection that accepts `room` more bytes. -/
def ResponseWriter.fresh (room : Nat) : ResponseWriter :=
  { header := [], wroteHeader := false, status := 0, sent := [], body := [], room := room }

/-- The method `WriteHeader`: the first call fixes the status and the headers
on the wire; later calls change nothing. -/
def ResponseWriter.WriteHeader (w : ResponseWriter) (code : Nat) : ResponseWriter :=
  if w.wroteHeader then w
  else { w with wroteHeader := true, status := code, sent := w.header }

/-- The method `Write`: writes the status line with `200` first if that has not
happened, then as many bytes as the connection accepts; returns their number. -/
def ResponseWriter.Write (w : ResponseWriter) (b : Bytes) : ResponseWriter × Nat :=
  let w := if w.wroteHeader then w else w.WriteHeader 200
  let n := min b.length w.room
  ({ w with body := w.body ++ b.take n, room := w.room - n }, n)

/-- UTF-8 bytes of a string. -/
def utf8 (s : Str) : Bytes := (s.map String.utf8EncodeChar).flatten

/-- The function `http.Error`. -/
def httpError (L : GoLib) (w : ResponseWriter) (msg : Str) (code : Nat) : ResponseWriter :=
  let h := Header.Del L w.header "Content-Length".toList
  let h := Header.Set L h "Content-Type".toList "text/plain; charset=utf-8".toList
  let h := Header.Set L h "X-Content-Type-Options".toList "nosniff".toList
  let w := { w with header := h }
  let w := w.WriteHeader code
  (w.Write (utf8 (msg ++ ['\n']))).1

/-- The call `io.Copy(w, body)`: the delivered bytes go to the writer; the
count of bytes written is returned and errors are dropped by both callers. -/
def ioCopy (w : ResponseWriter) (body : BodyStream) : ResponseWriter × Nat :=
  w.Write body.data

/-- The call `io.ReadAll(body)`. -/
def ioReadAll (body : BodyStream) : Except Str Bytes :=
  match body.err with
  | none => Except.ok body.data
  | some e => Except.error e

/-- The header change both handlers make when an upstream proxy is set. -/
def setProxyAuthorization (L : GoLib) (p : Proxy) (r : Request) : Request :=
  match p.proxy with
  | none => r
  | some u =>
    let auth : Str := "Basic ".toList ++ L.base64 (utf8 (L.urlString u))
    { r with Header := Header.Set L r.Header ("Proxy-Authorization".toList) auth }

/-! ## Transparent forward -/

/-- What `forward` did: spliced a tunnel (CONNECT, not modelled further) or
answered through the writer. -/
inductive Forwarded where
  | tunnel
  | replied (w : ResponseWriter)
deriving DecidableEq, Repr

/-- The method `Proxy.forward`. `roundTrip` is `http.DefaultTransport.RoundTrip`
for this call. -/
def Proxy.forward (L : GoLib) (p : Proxy) (roundTrip : Request → Except Str Response)
    (w : ResponseWriter) (r : Request) : Forwarded :=
  let r := { r with Header := Header.Del L r.Header "Proxy-Connection".toList }
  let r := setProxyAuthorization L p r
  if r.Method = "CONNECT".toList then Forwarded.tunnel
  else
    match roundTrip r with
    | Except.error e => Forwarded.replied (httpError L w e 503)
    | Except.ok response =>
      let w := w.WriteHeader response.StatusCode
      let w := { w with header := copyHeader L w.header response.Header }
      Forwarded.replied (ioCopy w response.Body).1

/-! ## Interception: `doRequest` and the capture record -/

/-- The table `cipherSuiteMap`. -/
def cipherSuiteMap : List (Nat × Str) :=
  [ (0x0005, "TLS_RSA_WITH_RC4_128_SHA".toList),
    (0x000a, "TLS_RSA_WITH_3DES_EDE_CBC_SHA".toList),
    (0x002f, "TLS_RSA_WITH_AES_128_CBC_SHA".toList),
    (0x0035, "TLS_RSA_WITH_AES_256_CBC_SHA".toList),
    (0x003c, "TLS_RSA_WITH_AES_128_CBC_SHA256".toList),
    (0x009c, "TLS_RSA_WITH_AES_128_GCM_SHA256".toList),
    (0x009d, "TLS_RSA_WITH_AES_256_GCM_SHA384".toList),
    (0xc007, "TLS_ECDHE_ECDSA_WITH_RC4_128_SHA".toList),
    (0xc009, "TLS_ECDHE_ECDSA_WITH_AES_128_CBC_SHA".toList),
    (0xc00a, "TLS_ECDHE_ECDSA_WITH_AES_256_CBC_SHA".toList),
    (0xc011, "TLS_ECDHE_RSA_WITH_RC4_128_SHA".toList),
    (0xc012, "TLS_ECDHE_RSA_WITH_3DES_EDE_CBC_SHA".toList),
    (0xc013, "TLS_ECDHE_RSA_WITH_AES_128_CBC_SHA".toList),
    (0xc014, "TLS_ECDHE_RSA_WITH_AES_256_CBC_SHA".toList),
    (0xc023, "TLS_ECDHE_ECDSA_WITH_AES_128_CBC_SHA256".toList),
    (0xc027, "TLS_ECDHE_RSA_WITH_AES_128_CBC_SHA256".toList),
    (0xc02f, "TLS_ECDHE_RSA_WITH_AES_128_GCM_SHA256".toList),
    (0xc02b, "TLS_ECDHE_ECDSA_WITH_AES_128_GCM_SHA256".toList),
    (0xc030, "TLS_ECDHE_RSA_WITH_AES_256_GCM_SHA384".toList),
    (0xc02c, "TLS_ECDHE_ECDSA_WITH_AES_256_GCM_SHA384".toList),
    (0xcca8, "TLS_ECDHE_RSA_WITH_CHACHA20_POLY1305_SHA256".toList),
    (0xcca9, "TLS_ECDHE_ECDSA_WITH_CHACHA20_POLY1305_SHA256".toList),
    (0x1301, "TLS_AES_128_GCM_SHA256".toList),
    (0x1302, "TLS_AES_256_GCM_SHA384".toList),
    (0x1303, "TLS_CHACHA20_POLY1305_SHA256".toList) ]

/-- The map read `cipherSuiteMap[id]`: the empty string for an unknown id. -/
def cipherSuiteName (id : Nat) : Str :=
  match cipherSuiteMap.find? (fun e => e.1 == id) with
  | some e => e.2
  | none => []

/-- A `map[string]string`, as an association list. -/
abbrev StrMap := List (Str × Str)

/-- The map write `m[k] = v`. -/
def StrMap.set (m : StrMap) (k v : Str) : StrMap :=
  if m.any (fun e => e.1 == k) then m.map (fun e => if e.1 == k then (k, v) else e)
  else m ++ [(k, v)]

/-- The struct `api.Message` as `doRequest` fills it; `Time`, `Size` and
`Status` are `uint16` fields. -/
structure Message where
  Url : Str
  RemoteAddr : Str
  Method : Str
  /-- The field `Type`, a reserved word here, hence the underscore. -/
  Type_ : Str
  Time : Nat
  Size : Nat
  Status : Nat
  ReqHeader : StrMap
  ReqCookie : StrMap
  ReqBody : Bytes
  RespHeader : StrMap
  RespCookie : StrMap
  RespBody : Bytes
  RespTls : StrMap
deriving DecidableEq, Repr

/-- The conversion `uint16(x)` of a non-negative integer. -/
def uint16 (x : Nat) : Nat := x % 65536

/-- A field read through a pointer: a `nil` pointer is a run-time panic. -/
def deref {α : Type} (ptr : Option α) : Except Str α :=
  match ptr with
  | some a => Except.ok a
  | none => Except.error "invalid memory address or nil pointer dereference".toList

/-- The first-value-only copy of a header map made for the record. -/
def collapseHeader (L : GoLib) (h : Header) : StrMap :=
  h.foldl (fun m kv => StrMap.set m kv.1 (Header.Get L h kv.1)) []

/-- The cookie map made for the record: name to raw text. -/
def cookieMap (cs : List Cookie) : StrMap :=
  cs.foldl (fun m c => StrMap.set m c.Name c.Raw) []

/-- The map `reqTls`: the goroutine builds it under `if r.TLS != nil`; the
message has no field for it. -/
def reqTlsMap (r : Request) : StrMap :=
  match r.TLS with
  | none => []
  | some st =>
    let m := StrMap.set [] "ServerName".toList st.ServerName
    let m := StrMap.set m "NegotiatedProtocol".toList st.NegotiatedProtocol
    let m := StrMap.set m "Version".toList (Nat.repr st.Version).toList
    let m := StrMap.set m "Unique".toList (st.TLSUnique.map (fun b => Char.ofNat b.toNat))
    StrMap.set m "CipherSuite".toList (cipherSuiteName st.CipherSuite)

/-- The `switch` on `response.TLS.Version`. -/
def versionLabel (v : Nat) : Str :=
  if v = 0x0301 then "1.0".toList
  else if v = 0x0302 then "1.1".toList
  else if v = 0x0303 then "1.2".toList
  else if v = 0x0304 then "1.3".toList
  else "Unknown".toList

/-- The map `respTls`: filled under `if response.TLS != nil`; its last entry
reads `r.TLS.CipherSuite`, through the request's TLS state. -/
def respTlsMap (L : GoLib) (r : Request) (response : Response) : Except Str StrMap :=
  match response.TLS with
  | none => Except.ok []
  | some st =>
    let m := StrMap.set [] "ServerName".toList st.ServerName
    let m := StrMap.set m "NegotiatedProtocol".toList st.NegotiatedProtocol
    let m := StrMap.set m "Version".toList (versionLabel st.Version)
    let m := StrMap.set m "Unique".toList (L.base64 st.TLSUnique)
    match deref r.TLS with
    | Except.error e => Except.error e
    | Except.ok rst => Except.ok (StrMap.set m "CipherSuite".toList (cipherSuiteName rst.CipherSuite))

/-- The loop that picks `contentType` out of the pieces of the header value;
`contentTypes` is the value kept when no piece is picked. -/
def typeLoop (L : GoLib) (contentTypes : Str) : List Str → Str
  | [] => contentTypes
  | v :: vs =>
    let v := TrimSpace v
    if v = [] then typeLoop L contentTypes vs
    else if Contains (ToLower L.unicodeToLower v) "charset=".toList then typeLoop L contentTypes vs
    else v

/-- The `contentType` computed for the record from the header value. -/
def recordType (L : GoLib) (contentTypes : Str) : Str :=
  typeLoop L contentTypes (Split ';' contentTypes)

/-- The goroutine at the end of `doRequest`: builds the message that is sent
on the capture channel, or panics on a `nil` dereference. -/
def assemble (L : GoLib) (r : Request) (response : Response) (reqBody : Bytes)
    (contentTypes : Str) (spend size : Nat) (respBody : Bytes) : Except Str Message :=
  let reqHeader := collapseHeader L r.Header
  let respHeader := collapseHeader L response.Header
  let reqCookie := cookieMap (L.requestCookies r.Header)
  let respCookie := cookieMap (L.responseCookies response.Header)
  let _reqTls := reqTlsMap r
  match respTlsMap L r response with
  | Except.error e => Except.error e
  | Except.ok respTls =>
    Except.ok
      { Url := L.urlString r.URL, RemoteAddr := r.RemoteAddr, Method := r.Method,
        Type_ := recordType L contentTypes, Time := spend, Size := uint16 size,
        Status := uint16 response.StatusCode, ReqHeader := reqHeader, ReqCookie := reqCookie,
        ReqBody := reqBody, RespHeader := respHeader, RespCookie := respCookie,
        RespBody := respBody, RespTls := respTls }

/-- What became of the capture record. -/
inductive Emission where
  | nothing
  | record (m : Message)
  | panic (e : Str)
deriving DecidableEq, Repr

/-- The result of `doRequest`: the writer as the client sees it, and the record. -/
structure Served where
  w : ResponseWriter
  emitted : Emission
deriving DecidableEq, Repr

/-- The four decoding steps of the non-image branch, in source order: `deflate`,
`br`, `deflate` again, `gzip`; a failing step makes `doRequest` return. -/
def decodeBody (L : GoLib) (enc : Str) (bodyBytes : Bytes) : Except Str Bytes :=
  let step (name : Str) (f : Bytes → Except Str Bytes) (b : Bytes) : Except Str Bytes :=
    if enc = name then f b else Except.ok b
  match step "deflate".toList L.inflate bodyBytes with
  | Except.error e => Except.error e
  | Except.ok b1 =>
    match step "br".toList L.unbrotli b1 with
    | Except.error e => Except.error e
    | Except.ok b2 =>
      match step "deflate".toList L.inflate b2 with
      | Except.error e => Except.error e
      | Except.ok b3 => step "gzip".toList L.gunzip b3

/-- The test that sends a response down the streaming branch. -/
def isImage (L : GoLib) (contentTypes : Str) : Bool :=
  Contains (ToLower L.unicodeToLower contentTypes) "image".toList

/-- Wraps the outcome of the goroutine. -/
def emit (res : Except Str Message) : Emission :=
  match res with
  | Except.ok m => Emission.record m
  | Except.error e => Emission.panic e

/-- The opening statements of `doRequest`: the upstream-proxy header, then the
defaults for an empty `r.URL.Host` and an empty `r.URL.Scheme`. -/
def Proxy.prepare (L : GoLib) (p : Proxy) (r : Request) : Request :=
  let r := setProxyAuthorization L p r
  let r := if r.URL.Host = [] then { r with URL := { r.URL with Host := r.Host } } else r
  if r.URL.Scheme = [] then { r with URL := { r.URL with Scheme := "https".toList } } else r

/-- The statement `r.Body = io.NopCloser(bytes.NewBuffer(reqBody))`. -/
def withBody (r : Request) (reqBody : Bytes) : Request :=
  { r with Body := { data := reqBody, err := none } }

/-- The method `Proxy.doRequest`. `roundTrip` is `http.DefaultTransport.RoundTrip`
for this call and `elapsedMs` the measured duration in milliseconds. -/
def Proxy.doRequest (L : GoLib) (p : Proxy) (roundTrip : Request → Except Str Response)
    (elapsedMs : Nat) (w : ResponseWriter) (r : Request) : Served :=
  let r := p.prepare L r
  match ioReadAll r.Body with
  | Except.error _ =>
    { w := httpError L w "Failed to read request body".toList 500, emitted := Emission.nothing }
  | Except.ok reqBody =>
    let r := withBody r reqBody
    let spend := uint16 elapsedMs
    match roundTrip r with
    | Except.error e => { w := httpError L w e 503, emitted := Emission.nothing }
    | Except.ok response =>
      let w := { w with header := copyHeader L w.header response.Header }
      let w := w.WriteHeader response.StatusCode
      let contentTypes := Header.Get L response.Header "Content-Type".toList
      if isImage L contentTypes then
        let (w, size) := ioCopy w response.Body
        { w := w, emitted := emit (assemble L r response reqBody contentTypes spend size []) }
      else
        match ioReadAll response.Body with
        | Except.error _ =>
          { w := httpError L w "Failed to read response body".toList 500,
            emitted := Emission.nothing }
        | Except.ok bodyBytes =>
          let (w, s) := w.Write bodyBytes
          match decodeBody L (Header.Get L response.Header "Content-Encoding".toList) bodyBytes with
          | Except.error _ => { w := w, emitted := Emission.nothing }
          | Except.ok decoded =>
            { w := w, emitted := emit (assemble L r response reqBody contentTypes spend s decoded) }

/-! ## Construction -/

/-- The parsing and key-generation calls of `NewProxy`, and the two embedded
resources `static.CaCert` and `static.CaKey`. -/
structure Crypto where
  /-- The function `url.Parse`. -/
  urlParse : Str → Except Str URL
  /-- The function `pem.Decode`: the bytes of the first block, `none` when the
  returned block is `nil`. -/
  pemDecode : Bytes → Option Bytes
  /-- The function `x509.ParseCertificate`. -/
  ParseCertificate : Bytes → Except Str Certificate
  /-- The function `x509.ParsePKCS1PrivateKey`. -/
  ParsePKCS1PrivateKey : Bytes → Except Str PrivateKey
  /-- The call `rsa.GenerateKey(rand.Reader, 2048)`. -/
  GenerateKey : Except Str PrivateKey
  CaCert : Bytes
  CaKey : Bytes

/-- The results of `NewProxy`, and whether the goroutine running `p.start()`
(the TLS server) was launched. -/
structure Constructed where
  p : Proxy
  err : Option Str
  started : Bool
deriving DecidableEq, Repr

/-- The function `NewProxy`. The named result `err` is `nil` until a parser
assigns it; `url.Parse` returns a `nil` URL together with an error, and the
URL is stored only in that case. -/
def NewProxy (C : Crypto) (incl excl proxy : Str) : Constructed :=
  let p := Proxy.new
  let p := (p.SetInclude incl).1
  let p := (p.SetExclude excl).1
  let p := match C.urlParse proxy with
    | Except.error _ => { p with proxy := none }
    | Except.ok _ => p
  match C.pemDecode C.CaCert with
  | none => { p := p, err := none, started := false }
  | some der =>
    match C.ParseCertificate der with
    | Except.error e => { p := p, err := some e, started := false }
    | Except.ok cert =>
      let p := { p with rootCert := some cert }
      match C.pemDecode C.CaKey with
      | none => { p := p, err := none, started := false }
      | some keyBytes =>
        match C.ParsePKCS1PrivateKey keyBytes with
        | Except.error e => { p := p, err := some e, started := false }
        | Except.ok key =>
          let p := { p with rootKey := some key }
          match C.GenerateKey with
          | Except.error e => { p := p, err := some e, started := false }
          | Except.ok leaf =>
            let p := { p with privateKey := some leaf, listener := true, srv := true }
            { p := p, err := none, started := true }

/-! ## The `Type` field in words -/

/-- The test the type loop applies to a trimmed piece: not empty and without
`charset=` in its lower-cased form. -/
def isTypeToken (L : GoLib) (v : Str) : Bool :=
  decide (v ≠ []) && !Contains (ToLower L.unicodeToLower v) "charset=".toList

/-- The `Type` of the record in words: the first trimmed piece that passes
`isTypeToken`; the whole header value when no piece does. -/
def specType (L : GoLib) (c : Str) : Str :=
  match ((Split ';' c).map TrimSpace).find? (isTypeToken L) with
  | some v => v
  | none => c

/-! ## A small library instance for evaluating the model -/

/-- Shell-style matching with `*` and `?`, bounded by `fuel`. -/
def globFuel : Nat → Str → Str → Bool
  | 0, _, _ => false
  | _ + 1, [], [] => true
  | _ + 1, [], _ :: _ => false
  | n + 1, p :: ps, [] => p == '*' && globFuel n ps []
  | n + 1, p :: ps, c :: cs =>
    if p == '*' then globFuel n ps (c :: cs) || globFuel n (p :: ps) cs
    else (p == '?' || p == c) && globFuel n ps cs

/-- A stand-in decoder: a stream is valid when it opens with `marker`, and its
content is what follows. -/
def markedPayload (marker : UInt8) : Bytes → Except Str Bytes
  | [] => Except.error "unexpected EOF".toList
  | b :: rest => if b = marker then Except.ok rest else Except.error "corrupt input".toList

/-- A library instance with stand-ins simple enough to evaluate. -/
def testLib : GoLib :=
  { unicodeToLower := fun c => c
    Match := fun pat name => globFuel (pat.length + name.length + 1) pat name
    inflate := markedPayload 0x78
    unbrotli := markedPayload 0xCE
    gunzip := markedPayload 0x1F
    urlString := fun u => u.Scheme ++ "://".toList ++ u.Host ++ u.Rest
    requestCookies := fun _ => []
    responseCookies := fun _ => []
    base64 := fun b => b.map (fun x => Char.ofNat x.toNat)
    canonicalKey := fun k => k }

/-! ## Concrete inputs -/

/-- The TLS state of a decrypted request inside the tunnel. -/
def tunnelState : ConnectionState :=
  { Version := 0x0304, ServerName := "api.example".toList, NegotiatedProtocol := "http/1.1".toList,
    CipherSuite := 0x1301, TLSUnique := [] }

/-- A decrypted `GET /ping` for `api.example`, as the TLS server hands it over. -/
def tunnelGet : Request :=
  { Method := "GET".toList, URL := ⟨[], [], "/ping".toList⟩, Header := [], Body := ⟨[], none⟩,
    Host := "api.example".toList, RemoteAddr := "127.0.0.1:50000".toList,
    TLS := some tunnelState }

/-- The same request arriving over plain HTTP: no TLS state. -/
def plainGet : Request := { tunnelGet with TLS := none }

/-- An upstream answer `200`, `text/plain`, body `pong`, fetched over TLS. -/
def pongResponse : Response :=
  { StatusCode := 200, Header := [("Content-Type".toList, ["text/plain".toList])],
    Body := ⟨[112, 111, 110, 103], none⟩, TLS := some tunnelState }

/-- An upstream answer with `Content-Encoding: deflate`; for `testLib` the body
is a valid stream whose content is `hi`. -/
def deflateResponse : Response :=
  { StatusCode := 200,
    Header := [("Content-Type".toList, ["text/plain".toList]),
               ("Content-Encoding".toList, ["deflate".toList])],
    Body := ⟨[0x78, 104, 105], none⟩, TLS := some tunnelState }

/-- An upstream answer with `Content-Encoding: deflate` whose content is again
a deflate stream (for `testLib`), holding the single byte `h`. -/
def nestedDeflateResponse : Response :=
  { StatusCode := 200,
    Header := [("Content-Type".toList, ["text/plain".toList]),
               ("Content-Encoding".toList, ["deflate".toList])],
    Body := ⟨[0x78, 0x78, 104], none⟩, TLS := some tunnelState }

/-- An upstream answer carrying a JSON container-image manifest. -/
def manifestResponse : Response :=
  { StatusCode := 200,
    Header := [("Content-Type".toList, ["application/vnd.oci.image.manifest.v1+json".toList])],
    Body := ⟨[123, 125], none⟩, TLS := some tunnelState }

/-- An upstream answer carrying a PNG of 65536 bytes. -/
def bigImageResponse : Response :=
  { StatusCode := 200, Header := [("Content-Type".toList, ["image/png".toList])],
    Body := ⟨List.replicate 65536 0, none⟩, TLS := some tunnelState }

/-- An upstream answer carrying a three-byte image, its type in capitals. -/
def iconResponse : Response :=
  { StatusCode := 200, Header := [("Content-Type".toList, ["IMAGE/PNG".toList])],
    Body := ⟨[137, 80, 78], none⟩, TLS := some tunnelState }

/-- Crypto calls for a run in which the embedded certificate file is empty. -/
def emptyCaCert : Crypto :=
  { urlParse := fun _ => Except.error "empty url".toList
    pemDecode := fun b => if b = [] then none else some b
    ParseCertificate := fun b => Except.ok ⟨b⟩
    ParsePKCS1PrivateKey := fun b => Except.ok ⟨b⟩
    GenerateKey := Except.ok ⟨[1]⟩
    CaCert := []
    CaKey := [45, 45] }

/-! ## Facts about the string helpers -/

theorem foldl_appendToken (l acc : List Str) :
    l.foldl appendToken acc = acc ++ (l.map TrimSpace).filter (fun t => t ≠ []) := by
  induction l generalizing acc with
  | nil => simp
  | cons v vs ih =>
    simp only [List.foldl_cons, ih, appendToken, List.map_cons, List.filter_cons]
    by_cases h : TrimSpace v = [] <;> simp [h]

theorem sep_not_mem_of_mem_Split (sep : Char) (s piece : Str) (h : piece ∈ Split sep s) :
    sep ∉ piece := by
  induction s generalizing piece with
  | nil =>
    simp only [Split, List.mem_singleton] at h
    subst h; simp
  | cons c cs ih =>
    unfold Split at h
    by_cases hc : c = sep
    · simp only [hc, if_true, List.mem_cons] at h
      rcases h with h | h
      · subst h; simp
      · exact ih piece h
    · simp only [hc, if_false] at h
      cases hs : Split sep cs with
      | nil =>
        rw [hs] at h
        simp only [List.mem_singleton] at h
        subst h
        simp only [List.mem_singleton]
        exact fun e => hc e.symm
      | cons t ts =>
        rw [hs] at h
        simp only [List.mem_cons] at h
        have ht : sep ∉ t := ih t (by rw [hs]; exact List.mem_cons_self _ _)
        rcases h with h | h
        · subst h
          simp only [List.mem_cons, not_or]
          exact ⟨fun e => hc e.symm, ht⟩
        · exact ih piece (by rw [hs]; exact List.mem_cons_of_mem _ h)

theorem TrimSpace_eq (s : Str) :
    TrimSpace s = List.rdropWhile isSpace (s.dropWhile isSpace) := rfl

theorem TrimSpace_sublist (s : Str) : (TrimSpace s).Sublist s := by
  rw [TrimSpace_eq]
  exact (List.rdropWhile_prefix isSpace _).sublist.trans (List.dropWhile_suffix isSpace).sublist

theorem TrimSpace_head (s : Str) (c : Char) (h : (TrimSpace s).head? = some c) :
    isSpace c = false := by
  have hne : TrimSpace s ≠ [] := by
    intro e; rw [e] at h; simp at h
  have hpre : TrimSpace s <+: s.dropWhile isSpace := by
    rw [TrimSpace_eq]; exact List.rdropWhile_prefix isSpace _
  have hd := hpre.head hne
  rw [List.head?_eq_head hne] at h
  have hc : c = (TrimSpace s).head hne := (Option.some.inj h).symm
  rw [hc, hd]
  exact List.head_dropWhile_not isSpace s _

theorem TrimSpace_getLast (s : Str) (c : Char) (h : (TrimSpace s).getLast? = some c) :
    isSpace c = false := by
  have hne : TrimSpace s ≠ [] := by
    intro e; rw [e] at h; simp at h
  rw [List.getLast?_eq_getLast _ hne] at h
  have hc : c = (TrimSpace s).getLast hne := (Option.some.inj h).symm
  have := List.rdropWhile_last_not isSpace (s.dropWhile isSpace) hne
  rw [hc]
  simpa [TrimSpace_eq] using this

/-! ## `SetInclude` / `SetExclude` -/

/-- C2: after `SetInclude(s)`, `Include()` and the value `SetInclude` returned
are both the list of the `;`-separated pieces of `s`, trimmed, with the empty
ones dropped, in order; the exclude list is untouched. The same holds for
`SetExclude` / `Exclude` with the include list untouched. No token of that list
is empty, starts or ends with white space, or contains `;`. -/
theorem SetInclude_Include_tokens (p : Proxy) (s : Str) :
    (p.SetInclude s).1.Include = specTokens s ∧
    (p.SetInclude s).2 = specTokens s ∧
    (p.SetInclude s).1.Exclude = p.Exclude ∧
    (p.SetExclude s).1.Exclude = specTokens s ∧
    (p.SetExclude s).2 = specTokens s ∧
    (p.SetExclude s).1.Include = p.Include ∧
    ∀ t ∈ specTokens s,
      t ≠ [] ∧ (∀ c, t.head? = some c → isSpace c = false) ∧
      (∀ c, t.getLast? = some c → isSpace c = false) ∧ ';' ∉ t := by
  have hfold : (Split ';' s).foldl appendToken [] = specTokens s := by
    rw [foldl_appendToken]; simp [specTokens]
  refine ⟨hfold, hfold, rfl, hfold, hfold, rfl, ?_⟩
  intro t ht
  simp only [specTokens, List.mem_filter, List.mem_map, decide_eq_true_eq] at ht
  obtain ⟨⟨piece, hpiece, rfl⟩, hne⟩ := ht
  refine ⟨hne, TrimSpace_head piece, TrimSpace_getLast piece, ?_⟩
  intro hmem
  exact sep_not_mem_of_mem_Split ';' s piece hpiece ((TrimSpace_sublist piece).subset hmem)

/-- C2 at `" a.com ;; *.b.org;"`: both setters give `["a.com", "*.b.org"]`, and
the token `"a.com"` passes the four checks. -/
theorem SetInclude_Include_tokens_witness :
    "a.com".toList ∈ specTokens " a.com ;; *.b.org;".toList ∧
    (Proxy.new.SetInclude " a.com ;; *.b.org;".toList).1.Include
      = ["a.com".toList, "*.b.org".toList] ∧
    ("a.com".toList ≠ [] ∧ (∀ c, "a.com".toList.head? = some c → isSpace c = false) ∧
      (∀ c, "a.com".toList.getLast? = some c → isSpace c = false) ∧ ';' ∉ "a.com".toList) :=
  ⟨by decide, by decide,
   (SetInclude_Include_tokens Proxy.new " a.com ;; *.b.org;".toList).2.2.2.2.2.2
     "a.com".toList (by decide)⟩

/-! ## The dispatcher -/

theorem excludeLoop_eq_any (L : GoLib) (host : Str) (E : List Str) :
    excludeLoop L host E = E.any (fun v => L.Match v host) := by
  induction E with
  | nil => rfl
  | cons v vs ih =>
    simp only [excludeLoop, List.any_cons, ih]
    cases L.Match v host <;> simp

theorem includeLoop_eq_any (L : GoLib) (host : Str) (I : List Str) :
    includeLoop L host I = I.any (fun v => L.Match v host) := by
  induction I with
  | nil => rfl
  | cons v vs ih =>
    simp only [includeLoop, List.any_cons, ih]
    cases L.Match v host <;> simp

theorem startsWith_singleton (c x : Char) (xs : Str) :
    startsWith (x :: xs) [c] = (x == c) := by
  cases xs <;> simp [startsWith]

theorem Contains_singleton (c : Char) (s : Str) : Contains s [c] = true ↔ c ∈ s := by
  induction s with
  | nil => simp [Contains]
  | cons x xs ih =>
    simp only [Contains, startsWith_singleton, Bool.or_eq_true, ih, List.mem_cons, beq_iff_eq]
    constructor
    · rintro (h | h)
      · exact Or.inl h.symm
      · exact Or.inr h
    · rintro (h | h)
      · exact Or.inl h.symm
      · exact Or.inr h

theorem indexFrom_singleton_append (c : Char) (h rest : Str) (i : Nat) (hc : c ∉ h) :
    indexFrom [c] (h ++ c :: rest) i = ((i + h.length : Nat) : Int) := by
  induction h generalizing i with
  | nil => simp [indexFrom, startsWith_singleton]
  | cons x xs ih =>
    simp only [List.mem_cons, not_or] at hc
    have hx : (x == c) = false := by
      simp only [beq_eq_false_iff_ne, ne_eq]
      exact fun e => hc.1 e.symm
    show indexFrom [c] (x :: (xs ++ c :: rest)) i = _
    rw [indexFrom, startsWith_singleton, hx, if_neg (by simp), ih (i + 1) hc.2]
    simp only [List.length_cons]
    congr 1
    omega

/-- A host without `:` is matched as it stands, and `h:port` is matched as `h`
when `h` has no `:` (DNS names and IPv4 literals). -/
theorem matchHost_of_no_colon (h port : Str) (hc : ':' ∉ h) :
    matchHost h = h ∧ matchHost (h ++ ':' :: port) = h := by
  constructor
  · have : Contains h [':'] = false := by
      rw [Bool.eq_false_iff]; intro e; exact hc ((Contains_singleton ':' h).1 e)
    simp [matchHost, this]
  · have hcon : Contains (h ++ ':' :: port) [':'] = true :=
      (Contains_singleton ':' _).2 (by simp)
    simp [matchHost, hcon, Index, indexFrom_singleton_append ':' h port 0 hc]

/-- C1: `ServeHTTP` hands the request to exactly one handler, the one given by
the decision "exclude match: forward; else include list non-empty and without a
match: forward; else `handleHttps` for CONNECT and `doRequest` otherwise",
taken on the host with its port cut off (a bare host is matched as it stands).
Hence a host matched by an exclude pattern is forwarded whatever the include
list and the method are, and never reaches `handleHttps`. -/
theorem ServeHTTP_decision (L : GoLib) (p : Proxy) (r : Request) :
    p.ServeHTTP L r = specRoute L p.exclude p.include_ (matchHost r.Host) r.Method ∧
    (':' ∉ r.Host → matchHost r.Host = r.Host) ∧
    ((∃ v ∈ p.exclude, L.Match v (matchHost r.Host) = true) →
      p.ServeHTTP L r = Handler.forward ∧ p.ServeHTTP L r ≠ Handler.handleHttps) := by
  have hmain : p.ServeHTTP L r
      = specRoute L p.exclude p.include_ (matchHost r.Host) r.Method := by
    unfold Proxy.ServeHTTP specRoute
    simp only [excludeLoop_eq_any, includeLoop_eq_any]
    cases hE : p.exclude with
    | nil =>
      cases hI : p.include_ with
      | nil => simp
      | cons i is =>
        cases hi : (i :: is).any (fun v => L.Match v (matchHost r.Host)) <;> simp [hi]
    | cons e es =>
      cases he : (e :: es).any (fun v => L.Match v (matchHost r.Host))
      · cases hI : p.include_ with
        | nil => simp [he]
        | cons i is =>
          cases hi : (i :: is).any (fun v => L.Match v (matchHost r.Host)) <;> simp [he, hi]
      · simp [he]
  refine ⟨hmain, fun hc => (matchHost_of_no_colon r.Host [] hc).1, ?_⟩
  rintro ⟨v, hv, hm⟩
  have hany : p.exclude.any (fun v => L.Match v (matchHost r.Host)) = true :=
    List.any_eq_true.2 ⟨v, hv, hm⟩
  have hf : p.ServeHTTP L r = Handler.forward := by
    rw [hmain]; simp [specRoute, hany]
  exact ⟨hf, by rw [hf]; decide⟩

/-- C1 at include `*.example`, exclude `blocked.example`, `CONNECT
blocked.example`: the host matches both lists and the request is forwarded. -/
theorem ServeHTTP_decision_witness :
    (':' ∉ "blocked.example".toList) ∧
    (∃ v ∈ ["blocked.example".toList],
      testLib.Match v (matchHost "blocked.example".toList) = true) ∧
    testLib.Match "*.example".toList "blocked.example".toList = true ∧
    Proxy.ServeHTTP testLib
      { Proxy.new with exclude := ["blocked.example".toList], include_ := ["*.example".toList] }
      { Method := MethodConnect, URL := ⟨[], [], []⟩, Header := [], Body := ⟨[], none⟩,
        Host := "blocked.example".toList, RemoteAddr := [], TLS := none } = Handler.forward :=
  ⟨by decide, ⟨"blocked.example".toList, by decide, by decide⟩, by decide,
   ((ServeHTTP_decision testLib
      { Proxy.new with exclude := ["blocked.example".toList], include_ := ["*.example".toList] }
      { Method := MethodConnect, URL := ⟨[], [], []⟩, Header := [], Body := ⟨[], none⟩,
        Host := "blocked.example".toList, RemoteAddr := [], TLS := none }).2.2
      ⟨"blocked.example".toList, by decide, by decide⟩).1⟩

/-- C7: for `Host: [::1]:8080` the dispatcher matches patterns against `[`, not
against `[::1]`; a bare `[::1]` is cut to `[` as well. The host is cut at its
first `:`, which for a bracketed IPv6 literal lies inside the address. -/
theorem matchHost_bracketed_ipv6 :
    matchHost "[::1]:8080".toList = "[".toList ∧ matchHost "[::1]".toList = "[".toList ∧
    matchHost "[::1]:8080".toList ≠ "[::1]".toList := by
  decide

/-! ## Transparent forward of an ordinary request -/

theorem setProxyAuthorization_keeps (L : GoLib) (p : Proxy) (r : Request) :
    (setProxyAuthorization L p r).Method = r.Method ∧
    (setProxyAuthorization L p r).Body = r.Body ∧
    (setProxyAuthorization L p r).TLS = r.TLS ∧
    (setProxyAuthorization L p r).URL = r.URL ∧
    (setProxyAuthorization L p r).Host = r.Host := by
  unfold setProxyAuthorization
  cases p.proxy <;> simp

/-- C4: on a fresh writer, for a request that is not a CONNECT and whose
round-trip succeeds, `forward` writes the status line before it copies the
upstream headers into the header map, so the header block on the wire is empty
whatever headers the upstream sent; the copies only reach the map. -/
theorem forward_sends_no_upstream_header (L : GoLib) (p : Proxy) (room : Nat) (r : Request)
    (response : Response) (hm : r.Method ≠ MethodConnect) :
    ∃ w, p.forward L (fun _ => Except.ok response) (ResponseWriter.fresh room) r
        = Forwarded.replied w ∧
      w.sent = [] ∧ w.status = response.StatusCode ∧
      w.header = copyHeader L [] response.Header := by
  have hm2 : (setProxyAuthorization L p
      { r with Header := Header.Del L r.Header "Proxy-Connection".toList }).Method
      ≠ "CONNECT".toList := by
    rw [(setProxyAuthorization_keeps L p _).1]; exact hm
  have hrun : p.forward L (fun _ => Except.ok response) (ResponseWriter.fresh room) r
      = Forwarded.replied (ioCopy
          { (ResponseWriter.fresh room).WriteHeader response.StatusCode with
            header := copyHeader L ((ResponseWriter.fresh room).WriteHeader
              response.StatusCode).header response.Header } response.Body).1 := by
    unfold Proxy.forward
    simp only [hm2, if_false]
  refine ⟨_, hrun, ?_, ?_, ?_⟩ <;>
    simp [ioCopy, ResponseWriter.Write, ResponseWriter.WriteHeader, ResponseWriter.fresh]

/-- C4 at `GET http://static.example/` answered `200` with
`Content-Type: text/plain` and body `ok`: the client gets status and body, and
no `Content-Type`. -/
theorem forward_sends_no_upstream_header_witness :
    "GET".toList ≠ MethodConnect ∧
    ∃ w, Proxy.forward testLib Proxy.new
        (fun _ => Except.ok
          { StatusCode := 200, Header := [("Content-Type".toList, ["text/plain".toList])],
            Body := ⟨[111, 107], none⟩, TLS := none })
        (ResponseWriter.fresh 100)
        { Method := "GET".toList, URL := ⟨"http".toList, "static.example".toList, "/".toList⟩,
          Header := [], Body := ⟨[], none⟩, Host := "static.example".toList, RemoteAddr := [],
          TLS := none } = Forwarded.replied w ∧
      w.sent = [] ∧ w.status = 200 ∧
      w.header = copyHeader testLib []
        [("Content-Type".toList, ["text/plain".toList])] :=
  ⟨by decide,
   forward_sends_no_upstream_header testLib Proxy.new 100
     { Method := "GET".toList, URL := ⟨"http".toList, "static.example".toList, "/".toList⟩,
       Header := [], Body := ⟨[], none⟩, Host := "static.example".toList, RemoteAddr := [],
       TLS := none }
     { StatusCode := 200, Header := [("Content-Type".toList, ["text/plain".toList])],
       Body := ⟨[111, 107], none⟩, TLS := none }
     (by decide)⟩

/-! ## Construction -/

/-- Parse failures of the root material do give an error and leave the server
unstarted. -/
theorem NewProxy_parse_failure (C : Crypto) (incl excl proxy : Str) (der : Bytes) (e : Str)
    (hpem : C.pemDecode C.CaCert = some der) (hparse : C.ParseCertificate der = Except.error e) :
    (NewProxy C incl excl proxy).err = some e ∧ (NewProxy C incl excl proxy).started = false := by
  simp [NewProxy, hpem, hparse]

/-- The server is started only on the path where nothing failed. -/
theorem NewProxy_started (C : Crypto) (incl excl proxy : Str)
    (h : (NewProxy C incl excl proxy).started = true) :
    (NewProxy C incl excl proxy).err = none ∧
    (NewProxy C incl excl proxy).p.rootCert.isSome = true ∧
    (NewProxy C incl excl proxy).p.rootKey.isSome = true := by
  cases h1 : C.pemDecode C.CaCert with
  | none => simp [NewProxy, h1] at h
  | some der =>
    cases h2 : C.ParseCertificate der with
    | error e => simp [NewProxy, h1, h2] at h
    | ok cert =>
      cases h3 : C.pemDecode C.CaKey with
      | none => simp [NewProxy, h1, h2, h3] at h
      | some keyBytes =>
        cases h4 : C.ParsePKCS1PrivateKey keyBytes with
        | error e => simp [NewProxy, h1, h2, h3, h4] at h
        | ok key =>
          cases h5 : C.GenerateKey with
          | error e => simp [NewProxy, h1, h2, h3, h4, h5] at h
          | ok leaf => simp [NewProxy, h1, h2, h3, h4, h5]

/-- C6: when the root certificate bytes hold no PEM block, or the certificate
loads and the root key bytes hold no PEM block, `NewProxy` leaves through a bare
`return` while the named result `err` is still `nil`: the caller gets a `nil`
error. The TLS server is not started on these paths. -/
theorem NewProxy_no_pem_block_nil_error (C : Crypto) (incl excl proxy : Str)
    (h : C.pemDecode C.CaCert = none ∨
      ∃ der cert, C.pemDecode C.CaCert = some der ∧
        C.ParseCertificate der = Except.ok cert ∧ C.pemDecode C.CaKey = none) :
    (NewProxy C incl excl proxy).err = none ∧ (NewProxy C incl excl proxy).started = false := by
  rcases h with h | ⟨der, cert, h1, h2, h3⟩
  · simp [NewProxy, h]
  · simp [NewProxy, h1, h2, h3]

/-- C6 at an empty `static.CaCert`: no error comes back. -/
theorem NewProxy_no_pem_block_nil_error_witness :
    emptyCaCert.pemDecode emptyCaCert.CaCert = none ∧
    (NewProxy emptyCaCert [] [] []).err = none ∧ (NewProxy emptyCaCert [] [] []).started = false :=
  ⟨by decide, NewProxy_no_pem_block_nil_error emptyCaCert [] [] [] (Or.inl (by decide))⟩

/-! ## Interception -/

theorem prepare_keeps (L : GoLib) (p : Proxy) (r : Request) :
    (p.prepare L r).Body = r.Body ∧ (p.prepare L r).TLS = r.TLS ∧
    (p.prepare L r).Method = r.Method := by
  obtain ⟨h1, h2, h3, -, -⟩ := setProxyAuthorization_keeps L p r
  unfold Proxy.prepare
  refine ⟨?_, ?_, ?_⟩ <;> (simp only []; split_ifs <;> simp [h1, h2, h3])

/-- What `doRequest` emits once the request body has been read and the
round-trip has answered: on the streaming branch the record with an empty body,
otherwise the record with the decoded body, or nothing when reading or decoding
fails. `min n room` is the count returned by the write. -/
theorem doRequest_emitted (L : GoLib) (p : Proxy) (roundTrip : Request → Except Str Response)
    (elapsedMs : Nat) (w : ResponseWriter) (r : Request) (response : Response)
    (hreq : r.Body.err = none)
    (hrt : roundTrip (withBody (p.prepare L r) r.Body.data) = Except.ok response) :
    (p.doRequest L roundTrip elapsedMs w r).emitted =
      if isImage L (Header.Get L response.Header "Content-Type".toList) = true then
        emit (assemble L (withBody (p.prepare L r) r.Body.data) response r.Body.data
          (Header.Get L response.Header "Content-Type".toList) (uint16 elapsedMs)
          (min response.Body.data.length w.room) [])
      else
        match ioReadAll response.Body with
        | Except.error _ => Emission.nothing
        | Except.ok bodyBytes =>
          match decodeBody L (Header.Get L response.Header "Content-Encoding".toList)
              bodyBytes with
          | Except.error _ => Emission.nothing
          | Except.ok decoded =>
            emit (assemble L (withBody (p.prepare L r) r.Body.data) response r.Body.data
              (Header.Get L response.Header "Content-Type".toList) (uint16 elapsedMs)
              (min bodyBytes.length w.room) decoded) := by
  have hbody : ioReadAll (p.prepare L r).Body = Except.ok r.Body.data := by
    rw [(prepare_keeps L p r).1]; simp [ioReadAll, hreq]
  unfold Proxy.doRequest
  simp only [hbody, hrt]
  by_cases himg : isImage L (Header.Get L response.Header "Content-Type".toList) = true
  · simp only [himg, if_true]
    simp [ioCopy, ResponseWriter.Write, ResponseWriter.WriteHeader]
    split_ifs <;> rfl
  · simp only [himg, if_false]
    cases hb : ioReadAll response.Body with
    | error e => simp
    | ok bodyBytes =>
      simp only []
      cases hd : decodeBody L (Header.Get L response.Header "Content-Encoding".toList)
          bodyBytes with
      | error e => simp
      | ok decoded =>
        simp [ResponseWriter.Write, ResponseWriter.WriteHeader]
        split_ifs <;> rfl

theorem decodeBody_deflate (L : GoLib) (b : Bytes) :
    decodeBody L "deflate".toList b =
      match L.inflate b with
      | Except.error e => Except.error e
      | Except.ok d => L.inflate d := by
  have h1 : ¬ ("deflate".toList = "br".toList) := by decide
  have h2 : ¬ ("deflate".toList = "gzip".toList) := by decide
  unfold decodeBody
  simp only [if_true, h1, h2, if_false]
  cases L.inflate b with
  | error e => rfl
  | ok d => simp only []; cases L.inflate d <;> rfl

/-- A `gzip` body goes through the gzip decoder once. -/
theorem decodeBody_gzip (L : GoLib) (b : Bytes) :
    decodeBody L "gzip".toList b = L.gunzip b := by
  have h1 : ¬ ("gzip".toList = "deflate".toList) := by decide
  have h2 : ¬ ("gzip".toList = "br".toList) := by decide
  unfold decodeBody
  simp only [if_true, h1, h2, if_false]

/-- A `br` body goes through the brotli decoder once. -/
theorem decodeBody_br (L : GoLib) (b : Bytes) :
    decodeBody L "br".toList b = L.unbrotli b := by
  have h1 : ¬ ("br".toList = "deflate".toList) := by decide
  have h2 : ¬ ("br".toList = "gzip".toList) := by decide
  unfold decodeBody
  simp only [if_true, h1, h2, if_false]
  cases L.unbrotli b <;> rfl

/-- A body with any other `Content-Encoding` value is kept as it is. -/
theorem decodeBody_other (L : GoLib) (enc : Str) (b : Bytes)
    (h1 : enc ≠ "deflate".toList) (h2 : enc ≠ "br".toList) (h3 : enc ≠ "gzip".toList) :
    decodeBody L enc b = Except.ok b := by
  unfold decodeBody
  simp only [h1, h2, h3, if_false]

/-- The assembly succeeds when the upstream response carries no TLS state or
the request carries one, and then fills `Size`, `RespBody` and `Type` from its
arguments. -/
theorem assemble_ok (L : GoLib) (r : Request) (response : Response) (reqBody : Bytes)
    (ct : Str) (spend size : Nat) (respBody : Bytes)
    (htls : response.TLS = none ∨ r.TLS.isSome = true) :
    ∃ m, assemble L r response reqBody ct spend size respBody = Except.ok m ∧
      m.Size = uint16 size ∧ m.RespBody = respBody ∧ m.Type_ = recordType L ct := by
  unfold assemble respTlsMap
  cases hresp : response.TLS with
  | none => exact ⟨_, rfl, rfl, rfl, rfl⟩
  | some st =>
    cases hr : r.TLS with
    | none => rw [hresp, hr] at htls; simp at htls
    | some rst => exact ⟨_, rfl, rfl, rfl, rfl⟩

/-- The record of the streaming branch. -/
theorem doRequest_record_image (L : GoLib) (p : Proxy)
    (roundTrip : Request → Except Str Response) (elapsedMs : Nat) (w : ResponseWriter)
    (r : Request) (response : Response) (hreq : r.Body.err = none)
    (hrt : roundTrip (withBody (p.prepare L r) r.Body.data) = Except.ok response)
    (htls : response.TLS = none ∨ r.TLS.isSome = true)
    (himg : isImage L (Header.Get L response.Header "Content-Type".toList) = true) :
    ∃ m, (p.doRequest L roundTrip elapsedMs w r).emitted = Emission.record m ∧
      m.Size = uint16 (min response.Body.data.length w.room) ∧ m.RespBody = [] ∧
      m.Type_ = recordType L (Header.Get L response.Header "Content-Type".toList) := by
  have htls2 : response.TLS = none ∨ (withBody (p.prepare L r) r.Body.data).TLS.isSome = true := by
    simpa [withBody, (prepare_keeps L p r).2.1] using htls
  obtain ⟨m, hm, h1, h2, h3⟩ := assemble_ok L (withBody (p.prepare L r) r.Body.data) response
    r.Body.data (Header.Get L response.Header "Content-Type".toList) (uint16 elapsedMs)
    (min response.Body.data.length w.room) [] htls2
  refine ⟨m, ?_, h1, h2, h3⟩
  rw [doRequest_emitted L p roundTrip elapsedMs w r response hreq hrt, if_pos himg, hm]
  rfl

/-- The record of the buffering branch. -/
theorem doRequest_record_buffered (L : GoLib) (p : Proxy)
    (roundTrip : Request → Except Str Response) (elapsedMs : Nat) (w : ResponseWriter)
    (r : Request) (response : Response) (decoded : Bytes) (hreq : r.Body.err = none)
    (hrt : roundTrip (withBody (p.prepare L r) r.Body.data) = Except.ok response)
    (htls : response.TLS = none ∨ r.TLS.isSome = true)
    (himg : isImage L (Header.Get L response.Header "Content-Type".toList) = false)
    (hread : response.Body.err = none)
    (hdec : decodeBody L (Header.Get L response.Header "Content-Encoding".toList)
      response.Body.data = Except.ok decoded) :
    ∃ m, (p.doRequest L roundTrip elapsedMs w r).emitted = Emission.record m ∧
      m.Size = uint16 (min response.Body.data.length w.room) ∧ m.RespBody = decoded ∧
      m.Type_ = recordType L (Header.Get L response.Header "Content-Type".toList) := by
  have htls2 : response.TLS = none ∨ (withBody (p.prepare L r) r.Body.data).TLS.isSome = true := by
    simpa [withBody, (prepare_keeps L p r).2.1] using htls
  obtain ⟨m, hm, h1, h2, h3⟩ := assemble_ok L (withBody (p.prepare L r) r.Body.data) response
    r.Body.data (Header.Get L response.Header "Content-Type".toList) (uint16 elapsedMs)
    (min response.Body.data.length w.room) decoded htls2
  refine ⟨m, ?_, h1, h2, h3⟩
  have hb : ioReadAll response.Body = Except.ok response.Body.data := by simp [ioReadAll, hread]
  rw [doRequest_emitted L p roundTrip elapsedMs w r response hreq hrt, himg]
  simp only [Bool.false_eq_true, if_false, hb, hdec, hm]
  rfl

/-! ## Capture of the response body -/

/-- C3: for a buffered response with `Content-Encoding: deflate` whose on-wire
body inflates to `d`, `doRequest` runs the inflate step a second time, on `d`:
when `d` is not itself a deflate stream no record is emitted, and when it is,
the record holds the result of inflating twice. -/
theorem doRequest_deflate_inflates_twice (L : GoLib) (p : Proxy)
    (roundTrip : Request → Except Str Response) (elapsedMs : Nat) (w : ResponseWriter)
    (r : Request) (response : Response) (d : Bytes) (hreq : r.Body.err = none)
    (hrt : roundTrip (withBody (p.prepare L r) r.Body.data) = Except.ok response)
    (htls : response.TLS = none ∨ r.TLS.isSome = true)
    (himg : isImage L (Header.Get L response.Header "Content-Type".toList) = false)
    (henc : Header.Get L response.Header "Content-Encoding".toList = "deflate".toList)
    (hread : response.Body.err = none)
    (hwire : L.inflate response.Body.data = Except.ok d) :
    (∀ e, L.inflate d = Except.error e →
      (p.doRequest L roundTrip elapsedMs w r).emitted = Emission.nothing) ∧
    (∀ d2, L.inflate d = Except.ok d2 →
      ∃ m, (p.doRequest L roundTrip elapsedMs w r).emitted = Emission.record m ∧
        m.RespBody = d2) := by
  have hb : ioReadAll response.Body = Except.ok response.Body.data := by simp [ioReadAll, hread]
  constructor
  · intro e he
    rw [doRequest_emitted L p roundTrip elapsedMs w r response hreq hrt, himg]
    simp only [Bool.false_eq_true, if_false, hb, henc, decodeBody_deflate, hwire, he]
  · intro d2 hd2
    have hdec : decodeBody L (Header.Get L response.Header "Content-Encoding".toList)
        response.Body.data = Except.ok d2 := by
      rw [henc, decodeBody_deflate, hwire]; exact hd2
    obtain ⟨m, hm, -, h2, -⟩ := doRequest_record_buffered L p roundTrip elapsedMs w r response d2
      hreq hrt htls himg hread hdec
    exact ⟨m, hm, h2⟩

/-- C3 at a deflate body whose content is `hi`: decoding once succeeds, `hi` is
not a deflate stream, and no record is emitted; and at a deflate body whose
content `[0x78, 104]` is again a deflate stream: the record holds `[104]`, the
result of decoding twice. -/
theorem doRequest_deflate_inflates_twice_witness :
    testLib.inflate deflateResponse.Body.data = Except.ok [104, 105] ∧
    testLib.inflate [104, 105] = Except.error "corrupt input".toList ∧
    (Proxy.doRequest testLib Proxy.new (fun _ => Except.ok deflateResponse) 7
      (ResponseWriter.fresh 1000) tunnelGet).emitted = Emission.nothing ∧
    testLib.inflate nestedDeflateResponse.Body.data = Except.ok [0x78, 104] ∧
    (∃ m, (Proxy.doRequest testLib Proxy.new (fun _ => Except.ok nestedDeflateResponse) 7
        (ResponseWriter.fresh 1000) tunnelGet).emitted = Emission.record m ∧
      m.RespBody = [104]) :=
  ⟨rfl, rfl,
   (doRequest_deflate_inflates_twice testLib Proxy.new (fun _ => Except.ok deflateResponse) 7
      (ResponseWriter.fresh 1000) tunnelGet deflateResponse [104, 105] (by decide) rfl
      (Or.inr (by decide)) (by decide) (by decide) (by decide) rfl).1
     "corrupt input".toList rfl,
   rfl,
   (doRequest_deflate_inflates_twice testLib Proxy.new
      (fun _ => Except.ok nestedDeflateResponse) 7
      (ResponseWriter.fresh 1000) tunnelGet nestedDeflateResponse [0x78, 104] (by decide) rfl
      (Or.inr (by decide)) (by decide) (by decide) (by decide) rfl).2 [104] rfl⟩

/-- C5 as amended: for an intercepted response of body length `n` written to
the client in full, on either branch, the emitted record has
`Size = n mod 65536` (the field is a `uint16`), which is `n` itself whenever
`n < 65536`. -/
theorem doRequest_Size (L : GoLib) (p : Proxy)
    (roundTrip : Request → Except Str Response) (elapsedMs : Nat) (w : ResponseWriter)
    (r : Request) (response : Response) (hreq : r.Body.err = none)
    (hrt : roundTrip (withBody (p.prepare L r) r.Body.data) = Except.ok response)
    (htls : response.TLS = none ∨ r.TLS.isSome = true)
    (hfull : response.Body.data.length ≤ w.room)
    (hbuf : isImage L (Header.Get L response.Header "Content-Type".toList) = false →
      response.Body.err = none ∧
      ∃ d, decodeBody L (Header.Get L response.Header "Content-Encoding".toList)
        response.Body.data = Except.ok d) :
    ∃ m, (p.doRequest L roundTrip elapsedMs w r).emitted = Emission.record m ∧
      m.Size = response.Body.data.length % 65536 ∧
      (response.Body.data.length < 65536 → m.Size = response.Body.data.length) := by
  have hmin : min response.Body.data.length w.room = response.Body.data.length :=
    Nat.min_eq_left hfull
  have key : ∃ m, (p.doRequest L roundTrip elapsedMs w r).emitted = Emission.record m ∧
      m.Size = response.Body.data.length % 65536 := by
    cases himg : isImage L (Header.Get L response.Header "Content-Type".toList) with
    | true =>
      obtain ⟨m, hm, hs, -, -⟩ :=
        doRequest_record_image L p roundTrip elapsedMs w r response hreq hrt htls himg
      exact ⟨m, hm, by rw [hs, hmin]; rfl⟩
    | false =>
      obtain ⟨hread, d, hd⟩ := hbuf himg
      obtain ⟨m, hm, hs, -, -⟩ :=
        doRequest_record_buffered L p roundTrip elapsedMs w r response d hreq hrt htls himg
          hread hd
      exact ⟨m, hm, by rw [hs, hmin]; rfl⟩
  obtain ⟨m, hm, hs⟩ := key
  exact ⟨m, hm, hs, fun hlt => by rw [hs, Nat.mod_eq_of_lt hlt]⟩

/-- C5 at the `pong` answer: four bytes written, `Size = 4`. -/
theorem doRequest_Size_witness :
    ∃ m, (Proxy.doRequest testLib Proxy.new (fun _ => Except.ok pongResponse) 7
        (ResponseWriter.fresh 1000) tunnelGet).emitted = Emission.record m ∧
      m.Size = pongResponse.Body.data.length % 65536 ∧
      (pongResponse.Body.data.length < 65536 → m.Size = pongResponse.Body.data.length) :=
  doRequest_Size testLib Proxy.new (fun _ => Except.ok pongResponse) 7
    (ResponseWriter.fresh 1000) tunnelGet pongResponse (by decide) rfl (Or.inr (by decide))
    (by decide) (fun _ => ⟨by decide, [112, 111, 110, 103], rfl⟩)

/-- C5 fails as stated: a PNG of 65536 bytes, written in full, is recorded
with `Size = 0`. -/
theorem big_image_Size_wraps :
    bigImageResponse.Body.data.length = 65536 ∧
    bigImageResponse.Body.data.length ≤ (ResponseWriter.fresh 100000).room ∧
    ∃ m, (Proxy.doRequest testLib Proxy.new (fun _ => Except.ok bigImageResponse) 7
        (ResponseWriter.fresh 100000) tunnelGet).emitted = Emission.record m ∧
      m.Size = 0 ∧ m.Size ≠ bigImageResponse.Body.data.length := by
  have hlen : bigImageResponse.Body.data.length = 65536 :=
    List.length_replicate 65536 (0 : UInt8)
  obtain ⟨m, hm, hs, -, -⟩ := doRequest_record_image testLib Proxy.new
    (fun _ => Except.ok bigImageResponse) 7 (ResponseWriter.fresh 100000) tunnelGet
    bigImageResponse (by decide) rfl (Or.inr (by decide)) (by decide)
  have hs0 : m.Size = 0 := by
    rw [hs, hlen]; decide
  refine ⟨hlen, ?_, m, hm, hs0, ?_⟩
  · rw [hlen]; decide
  · rw [hs0, hlen]; decide

theorem startsWith_Contains (s sub : Str) (h : startsWith s sub = true) :
    Contains s sub = true := by
  cases s with
  | nil =>
    cases sub with
    | nil => rfl
    | cons d ds => simp [startsWith] at h
  | cons c cs => simp [Contains, h]

theorem startsWith_of_append (s a b : Str) (h : startsWith s (a ++ b) = true) :
    startsWith s a = true := by
  induction a generalizing s with
  | nil => cases s <;> rfl
  | cons d ds ih =>
    cases s with
    | nil => simp [startsWith] at h
    | cons c cs =>
      simp only [List.cons_append, startsWith, Bool.and_eq_true] at h
      simp only [startsWith, Bool.and_eq_true]
      exact ⟨h.1, ih cs h.2⟩

/-- C8 as amended: with the request body read and the round-trip answered, a
response whose lower-cased `Content-Type` contains `image` anywhere is streamed
and its record has an empty `RespBody`; every other response whose body is read
without error is buffered, and its record holds the decoded body (the body
itself when `Content-Encoding` is none of `gzip`, `deflate`, `br`). A value
that starts with `image/` in any letter case is among the streamed ones. -/
theorem doRequest_body_capture (L : GoLib) (p : Proxy)
    (roundTrip : Request → Except Str Response) (elapsedMs : Nat) (w : ResponseWriter)
    (r : Request) (response : Response) (hreq : r.Body.err = none)
    (hrt : roundTrip (withBody (p.prepare L r) r.Body.data) = Except.ok response)
    (htls : response.TLS = none ∨ r.TLS.isSome = true) :
    (isImage L (Header.Get L response.Header "Content-Type".toList) = true →
      ∃ m, (p.doRequest L roundTrip elapsedMs w r).emitted = Emission.record m ∧
        m.RespBody = []) ∧
    (isImage L (Header.Get L response.Header "Content-Type".toList) = false →
      response.Body.err = none →
      ∀ d, decodeBody L (Header.Get L response.Header "Content-Encoding".toList)
          response.Body.data = Except.ok d →
        ∃ m, (p.doRequest L roundTrip elapsedMs w r).emitted = Emission.record m ∧
          m.RespBody = d) ∧
    (Header.Get L response.Header "Content-Encoding".toList ≠ "deflate".toList →
      Header.Get L response.Header "Content-Encoding".toList ≠ "br".toList →
      Header.Get L response.Header "Content-Encoding".toList ≠ "gzip".toList →
      decodeBody L (Header.Get L response.Header "Content-Encoding".toList)
        response.Body.data = Except.ok response.Body.data) ∧
    (startsWith (ToLower L.unicodeToLower
        (Header.Get L response.Header "Content-Type".toList)) "image/".toList = true →
      isImage L (Header.Get L response.Header "Content-Type".toList) = true) := by
  refine ⟨?_, ?_, ?_, ?_⟩
  · intro himg
    obtain ⟨m, hm, -, hb, -⟩ :=
      doRequest_record_image L p roundTrip elapsedMs w r response hreq hrt htls himg
    exact ⟨m, hm, hb⟩
  · intro himg hread d hd
    obtain ⟨m, hm, -, hb, -⟩ :=
      doRequest_record_buffered L p roundTrip elapsedMs w r response d hreq hrt htls himg
        hread hd
    exact ⟨m, hm, hb⟩
  · intro h1 h2 h3
    exact decodeBody_other L _ _ h1 h2 h3
  · intro hpre
    have hsplit : "image/".toList = "image".toList ++ "/".toList := by decide
    rw [hsplit] at hpre
    exact startsWith_Contains _ _ (startsWith_of_append _ _ _ hpre)

/-- C8 at `IMAGE/PNG` (streamed, empty `RespBody`) and at the `text/plain`
answer `pong` (buffered, `RespBody = pong`). -/
theorem doRequest_body_capture_witness :
    (∃ m, (Proxy.doRequest testLib Proxy.new (fun _ => Except.ok iconResponse) 7
        (ResponseWriter.fresh 1000) tunnelGet).emitted = Emission.record m ∧
      m.RespBody = []) ∧
    (∃ m, (Proxy.doRequest testLib Proxy.new (fun _ => Except.ok pongResponse) 7
        (ResponseWriter.fresh 1000) tunnelGet).emitted = Emission.record m ∧
      m.RespBody = [112, 111, 110, 103]) :=
  ⟨(doRequest_body_capture testLib Proxy.new (fun _ => Except.ok iconResponse) 7
      (ResponseWriter.fresh 1000) tunnelGet iconResponse (by decide) rfl
      (Or.inr (by decide))).1 (by decide),
   (doRequest_body_capture testLib Proxy.new (fun _ => Except.ok pongResponse) 7
      (ResponseWriter.fresh 1000) tunnelGet pongResponse (by decide) rfl
      (Or.inr (by decide))).2.1 (by decide) (by decide) [112, 111, 110, 103] rfl⟩

/-- C8 fails as stated: `application/vnd.oci.image.manifest.v1+json` does not
start with `image/`, its body is read and written without error, and the record
leaves the body out. -/
theorem doRequest_manifest_body_left_out :
    startsWith (ToLower testLib.unicodeToLower
      (Header.Get testLib manifestResponse.Header "Content-Type".toList)) "image/".toList = false ∧
    manifestResponse.Body.err = none ∧ manifestResponse.Body.data = [123, 125] ∧
    ∃ m, (Proxy.doRequest testLib Proxy.new (fun _ => Except.ok manifestResponse) 7
        (ResponseWriter.fresh 1000) tunnelGet).emitted = Emission.record m ∧
      m.RespBody = [] ∧ m.RespBody ≠ manifestResponse.Body.data := by
  obtain ⟨m, hm, -, hb, -⟩ := doRequest_record_image testLib Proxy.new
    (fun _ => Except.ok manifestResponse) 7 (ResponseWriter.fresh 1000) tunnelGet
    manifestResponse (by decide) rfl (Or.inr (by decide)) (by decide)
  refine ⟨by decide, by decide, by decide, m, hm, hb, ?_⟩
  rw [hb]; decide

/-! ## The `Type` field -/

theorem typeLoop_eq_find (L : GoLib) (c : Str) (l : List Str) :
    typeLoop L c l =
      match (l.map TrimSpace).find? (isTypeToken L) with
      | some v => v
      | none => c := by
  induction l with
  | nil => rfl
  | cons v vs ih =>
    have hstep : typeLoop L c (v :: vs) =
        if TrimSpace v = [] then typeLoop L c vs
        else if Contains (ToLower L.unicodeToLower (TrimSpace v)) "charset=".toList = true
          then typeLoop L c vs
        else TrimSpace v := rfl
    rw [hstep, List.map_cons, List.find?_cons]
    by_cases h1 : TrimSpace v = []
    · have hval : isTypeToken L (TrimSpace v) = false := by
        unfold isTypeToken; rw [h1]; rfl
      rw [if_pos h1, ih, hval]
    · by_cases h2 : Contains (ToLower L.unicodeToLower (TrimSpace v)) "charset=".toList = true
      · have hval : isTypeToken L (TrimSpace v) = false := by
          unfold isTypeToken; rw [h2]; simp
        rw [if_neg h1, if_pos h2, ih, hval]
      · have hval : isTypeToken L (TrimSpace v) = true := by
          unfold isTypeToken; rw [Bool.eq_false_iff.2 h2]; simp [h1]
        rw [if_neg h1, if_neg h2, hval]

/-- C9 as amended: the `Type` of the record is the first `;`-separated piece of
the header value that, once trimmed, is not empty and has no `charset=` in its
lower-cased form, and it is that piece trimmed; when no piece qualifies it is
the header value unchanged. Both `text/plain; charset=utf-8` and
`charset=utf-8; text/plain` give `text/plain`. When a piece qualifies, `Type`
is not empty, contains no `;` and has no `charset=`. The record that the
assembly builds carries this value. -/
theorem recordType_spec (L : GoLib) (c : Str) :
    recordType L c = specType L c ∧
    recordType L "text/plain; charset=utf-8".toList = "text/plain".toList ∧
    recordType L "charset=utf-8; text/plain".toList = "text/plain".toList ∧
    (∀ v, ((Split ';' c).map TrimSpace).find? (isTypeToken L) = some v →
      recordType L c = v ∧ recordType L c ≠ [] ∧ ';' ∉ recordType L c ∧
      Contains (ToLower L.unicodeToLower (recordType L c)) "charset=".toList = false) ∧
    (((Split ';' c).map TrimSpace).find? (isTypeToken L) = none → recordType L c = c) ∧
    (∀ (r : Request) (response : Response) (reqBody : Bytes) (spend size : Nat)
        (respBody : Bytes) (m : Message),
      assemble L r response reqBody c spend size respBody = Except.ok m →
        m.Type_ = recordType L c) := by
  have hspec : recordType L c = specType L c := typeLoop_eq_find L c (Split ';' c)
  refine ⟨hspec, rfl, rfl, ?_, ?_, ?_⟩
  · intro v hv
    have hrt : recordType L c = v := by rw [hspec, specType, hv]
    have hp : isTypeToken L v = true := List.find?_some hv
    have hmem : v ∈ (Split ';' c).map TrimSpace := List.mem_of_find?_eq_some hv
    simp only [isTypeToken, Bool.and_eq_true, decide_eq_true_eq, Bool.not_eq_true'] at hp
    obtain ⟨piece, hpiece, rfl⟩ := List.mem_map.1 hmem
    rw [hrt]
    refine ⟨rfl, hp.1, ?_, hp.2⟩
    intro hsemi
    exact sep_not_mem_of_mem_Split ';' c piece hpiece ((TrimSpace_sublist piece).subset hsemi)
  · intro hnone
    rw [hspec, specType, hnone]
  · intro r response reqBody spend size respBody m hm
    unfold assemble at hm
    cases hmap : respTlsMap L r response with
    | error e => rw [hmap] at hm; simp at hm
    | ok tls =>
      rw [hmap] at hm
      simp only [Except.ok.injEq] at hm
      rw [← hm]

/-- C9 at `text/html; charset=UTF-8`: the first piece qualifies and is the
`Type`. -/
theorem recordType_spec_witness :
    ((Split ';' "text/html; charset=UTF-8".toList).map TrimSpace).find? (isTypeToken testLib)
      = some "text/html".toList ∧
    (recordType testLib "text/html; charset=UTF-8".toList = "text/html".toList ∧
      recordType testLib "text/html; charset=UTF-8".toList ≠ [] ∧
      ';' ∉ recordType testLib "text/html; charset=UTF-8".toList ∧
      Contains (ToLower testLib.unicodeToLower
        (recordType testLib "text/html; charset=UTF-8".toList)) "charset=".toList = false) :=
  ⟨by decide,
   (recordType_spec testLib "text/html; charset=UTF-8".toList).2.2.2.1 "text/html".toList
     (by decide)⟩

/-- C9 fails as stated: for `charset=utf-8` the `Type` is `charset=utf-8`, a
charset directive; for `charset=utf-8;charset=x` it is the whole value, which
contains `;`; for `; text/plain` the first piece is empty and the `Type` is
the second one. -/
theorem recordType_keeps_charset_only_value :
    recordType testLib "charset=utf-8".toList = "charset=utf-8".toList ∧
    Contains (ToLower testLib.unicodeToLower (recordType testLib "charset=utf-8".toList))
      "charset=".toList = true ∧
    ';' ∈ recordType testLib "charset=utf-8;charset=x".toList ∧
    recordType testLib "; text/plain".toList = "text/plain".toList := by
  decide

/-! ## TLS state in the record assembly -/

/-- C10: when the request carries no TLS state and the upstream response
carries one, the assembly reads `r.TLS.CipherSuite` through the `nil` request
state while filling `respTls`, and stops there: no record is built. -/
theorem assemble_nil_request_TLS (L : GoLib) (r : Request) (response : Response)
    (st : ConnectionState) (reqBody : Bytes) (ct : Str) (spend size : Nat) (respBody : Bytes)
    (hr : r.TLS = none) (hresp : response.TLS = some st) :
    assemble L r response reqBody ct spend size respBody
      = Except.error "invalid memory address or nil pointer dereference".toList := by
  simp [assemble, respTlsMap, hr, hresp, deref]

/-- C10 at a plain-HTTP `GET /ping` whose upstream answer came over TLS. -/
theorem assemble_nil_request_TLS_witness :
    plainGet.TLS = none ∧ pongResponse.TLS = some tunnelState ∧
    assemble testLib plainGet pongResponse [] "text/plain".toList 7 4 [112, 111, 110, 103]
      = Except.error "invalid memory address or nil pointer dereference".toList :=
  ⟨rfl, rfl, assemble_nil_request_TLS testLib plainGet pongResponse tunnelState []
    "text/plain".toList 7 4 [112, 111, 110, 103] rfl rfl⟩

end GoMitm
